import Mathlib

/-!
Shallow embedding of `Rappi_products_extraction.py` and proofs about it.

The embedding follows the source file stage by stage:
* the pandas cleaning pipeline `process_data` (source lines 485-553) over
  dynamically typed cells,
* the per-restaurant network extraction task `extract_products` (303-362),
* the orchestration `extract_data` (364-483) with its pagination loop,
  category pass and sequential retry pass,
* the DOM fallback `scrap_restaurante` / `scrap_product` (210-301),
* the run driver `run` / `main` (647-699).

Python floats are modelled as exact fractions (an integer numerator with a
positive natural denominator); `NaN` is identified with the null cell, as
pandas stores `None` as `NaN` in object columns.  Selenium calls are modelled
by environments recording which call succeeds and what it returns.
-/

/-- An exact-fraction model of a Python float value. -/
structure Flt where
  num : Int
  den : Nat
deriving DecidableEq, Repr

/-- The rational value of a fraction (used for ordering and equality; every
fraction the program builds has a positive denominator). -/
def Flt.val (a : Flt) : ℚ := mkRat a.num a.den

/-- Numeric equality of two float cells, as used by the pandas `==` between the
two price columns. -/
def Flt.eqv (a b : Flt) : Bool := a.val == b.val

/-- Round half to even of the fraction `n / d` (`d` positive): the behaviour of
Python's `round` on an exact value. -/
def rndHalfEven (n : Int) (d : Nat) : Int :=
  let q := n / (d : Int)
  let r := n % (d : Int)
  if 2 * r < (d : Int) then q
  else if (d : Int) < 2 * r then q + 1
  else if q % 2 = 0 then q else q + 1

/-- The value in cents after rounding to two decimals, used both by
`round(x, 2)` and by fixed two-decimal string formatting. -/
def Flt.cents (a : Flt) : Int := rndHalfEven (100 * a.num) a.den

/-- Python `round(x, 2)` (line 522). -/
def Flt.round2 (a : Flt) : Flt := ⟨a.cents, 100⟩

/-- A cell of the pandas frame: Python `None`/`NaN`, `bool`, `float` or `str`. -/
inductive Cell where
  | none
  | b (v : Bool)
  | f (v : Flt)
  | s (v : String)
deriving DecidableEq, Repr

/-- Cell equality as pandas compares key cells: floats numerically, everything
else structurally (`NaN` equals `NaN` inside `drop_duplicates`). -/
def cellEqv (a b : Cell) : Bool :=
  match a, b with
  | Cell.f x, Cell.f y => x.eqv y
  | x, y => x == y

/-- One row of the dataset, in the column order of lines 489-503. -/
structure Row where
  popular : Cell
  producto : Cell
  descripcion : Cell
  precioConDescuento : Cell
  precioSinDescuento : Cell
  restaurante : Cell
  disponible : Cell
  categoria : Cell
  fecha : Cell
deriving DecidableEq, Repr

/-- The constant value of the added `Fecha` column (line 503); the calendar
date of the run, fixed for one execution. -/
def currentDateStr : String := "2025-10-12"

/-- Cell `i` of a raw record, `NaN` when the record is shorter. -/
def getCell (cs : List Cell) (i : Nat) : Cell := cs.getD i Cell.none

/-- Building the frame from one raw record (line 489): records shorter than the
eight named columns are padded with `NaN`, longer records make the constructor
raise; then the constant `Fecha` column is added (line 503). -/
def toRow (cs : List Cell) : Except String Row :=
  if cs.length ≤ 8 then
    Except.ok ⟨getCell cs 0, getCell cs 1, getCell cs 2, getCell cs 3, getCell cs 4,
               getCell cs 5, getCell cs 6, getCell cs 7, Cell.s currentDateStr⟩
  else Except.error "8 columns passed, passed data had more columns"

/-- `pd.DataFrame(self._products, columns=[...])` plus the `Fecha` column. -/
def mkFrame (products : List (List Cell)) : Except String (List Row) :=
  products.mapM toRow

/-- Key space for one ascending sort column. -/
abbrev CKey := Lex (ℕ × Lex (List Char × ℚ))

/-- Key space for one descending sort column. -/
abbrev DKey := Lex (ℕ × (Lex (List Char × ℚ))ᵒᵈ)

/-- Ascending sort key of one cell: `NaN` sorts last (pandas default
`na_position` is last); bools by value, floats numerically, strings
lexicographically.  Distinct runtime types are ranked; mixed-type sort columns
do not occur in the frames this program builds. -/
def cellKeyAsc : Cell → CKey
  | Cell.b v => toLex (0, toLex ([], if v then 1 else 0))
  | Cell.f v => toLex (1, toLex ([], v.val))
  | Cell.s t => toLex (2, toLex (t.data, 0))
  | Cell.none => toLex (3, toLex ([], 0))

/-- Descending sort key of one cell: same rank layout (`NaN` still last), value
order reversed. -/
def cellKeyDesc : Cell → DKey
  | Cell.b v => toLex (0, OrderDual.toDual (toLex ([], if v then 1 else 0)))
  | Cell.f v => toLex (1, OrderDual.toDual (toLex ([], v.val)))
  | Cell.s t => toLex (2, OrderDual.toDual (toLex (t.data, 0)))
  | Cell.none => toLex (3, OrderDual.toDual (toLex ([], 0)))

/-- Full key space of `sort_values`. -/
abbrev RowKey := Lex (CKey × Lex (CKey × Lex (CKey × DKey)))

/-- Sort key of lines 504-508: `Restaurante`, `Producto`, `Descripcion`
ascending and `Popular` descending. -/
def sortKey (r : Row) : RowKey :=
  toLex (cellKeyAsc r.restaurante, toLex (cellKeyAsc r.producto,
    toLex (cellKeyAsc r.descripcion, cellKeyDesc r.popular)))

/-- Row comparison of `sort_values`. -/
def rowLe (a b : Row) : Prop := sortKey a ≤ sortKey b

instance : DecidableRel rowLe := fun a b => inferInstanceAs (Decidable (sortKey a ≤ sortKey b))

instance : IsTotal Row rowLe := ⟨fun a b => le_total (sortKey a) (sortKey b)⟩

instance : IsTrans Row rowLe := ⟨fun _ _ _ h h' => le_trans h h'⟩

/-- `sort_values` (lines 504-508); the claims proved below do not depend on how
the sort breaks full ties, so a deterministic comparison sort is used. -/
def sort_values (rs : List Row) : List Row := List.insertionSort rowLe rs

/-- The duplicate key of lines 509-511. -/
def dkey (r : Row) : Cell × Cell × Cell := (r.restaurante, r.producto, r.descripcion)

/-- Value equality of two duplicate keys. -/
def dkeyEqv (a b : Cell × Cell × Cell) : Bool :=
  cellEqv a.1 b.1 && cellEqv a.2.1 b.2.1 && cellEqv a.2.2 b.2.2

/-- `drop_duplicates(subset, keep="first")` (lines 509-511): keep a row iff its
key was not seen before. -/
def drop_duplicates : List Row → List (Cell × Cell × Cell) → List Row
  | [], _ => []
  | r :: rs, seen =>
    if seen.any (fun k => dkeyEqv (dkey r) k) then drop_duplicates rs seen
    else r :: drop_duplicates rs (dkey r :: seen)

/-- `replace(\x7b"": None\x7d)` (line 512) on one cell. -/
def replaceEmptyCell : Cell → Cell
  | Cell.s "" => Cell.none
  | c => c

/-- Line 512 applied to every column of a row. -/
def replaceEmptyRow (r : Row) : Row :=
  ⟨replaceEmptyCell r.popular, replaceEmptyCell r.producto, replaceEmptyCell r.descripcion,
   replaceEmptyCell r.precioConDescuento, replaceEmptyCell r.precioSinDescuento,
   replaceEmptyCell r.restaurante, replaceEmptyCell r.disponible,
   replaceEmptyCell r.categoria, replaceEmptyCell r.fecha⟩

/-- Digit characters of a natural number, least significant first, with
explicit fuel so that the definition unfolds definitionally; `[]` for `0`. -/
def digitsRevGo : Nat → Nat → List Nat
  | 0, _ => []
  | _ + 1, 0 => []
  | fuel + 1, n => n % 10 :: digitsRevGo fuel (n / 10)

/-- Base-10 digits of `n`, least significant first. -/
def digitsRev (n : Nat) : List Nat := digitsRevGo n n

/-- Value of a least-significant-first digit list. -/
def ofDigitsRev : List Nat → Nat
  | [] => 0
  | d :: ds => d + 10 * ofDigitsRev ds

/-- Insert a thousands separator after every three digits counted from the
least significant one; input and output are least-significant-first. -/
def group3 : List Nat → Nat → List Char
  | [], _ => []
  | [d], _ => [Nat.digitChar d]
  | d :: ds, 0 => Nat.digitChar d :: ',' :: group3 ds 2
  | d :: ds, k + 1 => Nat.digitChar d :: group3 ds k

/-- The integer part with comma thousands separators. -/
def intChars (m : Nat) : List Char :=
  if m = 0 then ['0'] else (group3 (digitsRev m) 2).reverse

/-- Two fixed decimal digits of a cents remainder. -/
def frac2Chars (m : Nat) : List Char :=
  [Nat.digitChar (m / 10 % 10), Nat.digitChar (m % 10)]

/-- Fixed two-decimal comma-grouped formatting (the format spec `,.2f` of
line 535): round to cents, group the integer part with commas, then a period
and two decimals. -/
def formatFix2 (a : Flt) : String :=
  let c := a.cents
  let mag := c.natAbs
  let ds := intChars (mag / 100) ++ '.' :: frac2Chars (mag % 100)
  String.mk (if c < 0 then '-' :: ds else ds)

/-- Net effect on one character of the replace chain of lines 537-541: first
comma to semicolon and period to comma, then semicolon to period. -/
def swapChar (c : Char) : Char :=
  if c = ',' then '.' else if c = '.' then ',' else if c = ';' then '.' else c

/-- The separator swap applied to a whole string. -/
def swapSep (t : String) : String := String.mk (t.data.map swapChar)

/-- Digit-list value, most significant first; fails on a non-digit. -/
def digitsVal (cs : List Char) : Option Nat :=
  if cs.all Char.isDigit then some (cs.foldl (fun a c => 10 * a + (c.toNat - 48)) 0)
  else Option.none

/-- Magnitude part of Python `float(str)`: digits with at most one point.
Exponents, underscores and infinities are outside the model; no string this
pipeline feeds back contains them. -/
def pyFloatMag (cs : List Char) : Option Flt :=
  match cs.splitOn '.' with
  | [ip] =>
    if ip.isEmpty then Option.none
    else (digitsVal ip).map (fun v => ⟨v, 1⟩)
  | [ip, fp] =>
    if ip.isEmpty && fp.isEmpty then Option.none
    else
      match digitsVal ip, digitsVal fp with
      | some a, some b => some ⟨a * 10 ^ fp.length + b, 10 ^ fp.length⟩
      | _, _ => Option.none
  | _ => Option.none

/-- Python `float(str)` as used by `astype` on a string cell: `"nan"` gives
`NaN`, an optional sign then a decimal literal gives a value, anything else
(in particular any string containing a comma) raises. -/
def pyFloat (t : String) : Option Cell :=
  if t = "nan" then some Cell.none
  else
    match t.data with
    | '-' :: cs => (pyFloatMag cs).map (fun a => Cell.f ⟨-a.num, a.den⟩)
    | cs => (pyFloatMag cs).map Cell.f

/-- `astype(float)` on one cell (line 513): `NaN` stays `NaN`, bools become
0.0/1.0, strings go through `float()`, failure aborts the whole cleaning. -/
def astypeFloat : Cell → Option Cell
  | Cell.none => some Cell.none
  | Cell.b v => some (Cell.f ⟨if v then 1 else 0, 1⟩)
  | Cell.f v => some (Cell.f v)
  | Cell.s t => pyFloat t

/-- `astype(str)` on one cell (line 513): `NaN` becomes the string `"nan"`,
bools their Python repr.  A float in the `Popular` column does not occur in
the frames this program builds. -/
def astypeStr : Cell → Cell
  | Cell.none => Cell.s "nan"
  | Cell.b v => Cell.s (if v then "True" else "False")
  | Cell.f v => Cell.s (toString v.num ++ ".0")
  | Cell.s t => Cell.s t

/-- Lines 513-519: coerce the two price columns to float and `Popular` to str;
any unparsable price cell raises and aborts the cleaning. -/
def astypeRow (r : Row) : Option Row :=
  match astypeFloat r.precioConDescuento, astypeFloat r.precioSinDescuento with
  | some d, some l =>
    some { r with precioConDescuento := d, precioSinDescuento := l,
                  popular := astypeStr r.popular }
  | _, _ => Option.none

/-- Lines 520-522: round the discounted price to two decimals (`NaN` stays). -/
def roundRow (r : Row) : Row :=
  { r with precioConDescuento :=
      match r.precioConDescuento with
      | Cell.f v => Cell.f v.round2
      | c => c }

/-- Lines 523-529: null the discounted price where it equals the list price;
the comparison is the pandas elementwise `==`, false whenever either side is
`NaN`. -/
def nullDiscountRow (r : Row) : Row :=
  match r.precioConDescuento, r.precioSinDescuento with
  | Cell.f d, Cell.f l =>
    if d.eqv l then { r with precioConDescuento := Cell.none } else r
  | _, _ => r

/-- `applymap` of the `,.2f` format over a price cell (lines 530-536):
`NaN` formats to the string `"nan"`. -/
def formatCell : Cell → Cell
  | Cell.f v => Cell.s (formatFix2 v)
  | Cell.none => Cell.s "nan"
  | c => c

/-- Lines 530-536 applied to the two price columns. -/
def formatRow (r : Row) : Row :=
  { r with precioConDescuento := formatCell r.precioConDescuento,
           precioSinDescuento := formatCell r.precioSinDescuento }

/-- Lines 537-541 applied to a price cell. -/
def swapSepCell : Cell → Cell
  | Cell.s t => Cell.s (swapSep t)
  | c => c

/-- Lines 537-541 applied to the two price columns. -/
def swapSepRow (r : Row) : Row :=
  { r with precioConDescuento := swapSepCell r.precioConDescuento,
           precioSinDescuento := swapSepCell r.precioSinDescuento }

/-- Lines 542-544: a status matching `^Abre.+` is rewritten to the constant
closed label. -/
def replaceAbre : Cell → Cell
  | Cell.s t =>
    if t.data.take 4 = ['A', 'b', 'r', 'e'] ∧ 4 < t.data.length then
      Cell.s "Restaurante cerrado"
    else Cell.s t
  | c => c

/-- `re.sub(" -.+", "")`: delete everything from the first space-dash that is
followed by at least one character (lines 545-546). -/
def stripDashAux : List Char → List Char
  | ' ' :: '-' :: _ :: _ => []
  | c :: cs => c :: stripDashAux cs
  | [] => []

/-- Lines 545-546 applied to a cell. -/
def stripDashCell : Cell → Cell
  | Cell.s t => Cell.s (String.mk (stripDashAux t.data))
  | c => c

/-- Lines 547-549: exact-value replace of the `Popular` strings. -/
def popularReplaceCell : Cell → Cell
  | Cell.s "True" => Cell.s "popular"
  | Cell.s "False" => Cell.s ""
  | c => c

/-- The per-row part of the cleaning after sort and dedup (lines 512-549), in
source order: empty strings to null, type coercion, rounding, discount
nulling, price formatting, separator swap, availability rewrite, suffix
stripping, popularity relabelling. -/
def cleanRow (r : Row) : Option Row :=
  (astypeRow (replaceEmptyRow r)).map (fun r1 =>
    let r2 := nullDiscountRow (roundRow r1)
    let r3 := swapSepRow (formatRow r2)
    { r3 with disponible := replaceAbre r3.disponible,
              categoria := stripDashCell r3.categoria,
              restaurante := stripDashCell r3.restaurante,
              popular := popularReplaceCell r3.popular })

/-- `process_data` (lines 485-553): build the frame, sort, drop duplicates,
then clean; an exception anywhere (frame construction or float coercion) is
the error case, caught at line 551 without producing a cleaned dataset. -/
def process_data (products : List (List Cell)) : Except String (List Row) := do
  let rows ← mkFrame products
  let deduped := drop_duplicates (sort_values rows) []
  match deduped.mapM cleanRow with
  | some out => Except.ok out
  | Option.none => Except.error "could not convert string to float"

/-- The dataset row as the list of its cells in column order, `Fecha`
included: what feeding the output back into the pipeline would present. -/
def Row.cells (r : Row) : List Cell :=
  [r.popular, r.producto, r.descripcion, r.precioConDescuento, r.precioSinDescuento,
   r.restaurante, r.disponible, r.categoria, r.fecha]

/-- One extracted record (a list of eight cells, line 340-353 or 222-260). -/
abbrev PRecord := List Cell

/-- One queued retry target: resolved display name, link, availability
(line 361). -/
abbrev RetryEntry := String × String × String

/-- The mutable scraper accumulators: product rows, visited links
(`self._restaurants`), the retry queue (`self._links_to_go`) and the metadata
error counter. -/
structure ScraperState where
  products : List PRecord
  restaurants : List String
  links_to_go : List RetryEntry
  num_errors : Nat
deriving DecidableEq, Repr

/-- Environment of one `extract_products` task: which selenium call succeeds
and what it returns.  `response` bundles the bounded wait for the captured
request together with decoding, JSON parsing and record flattening
(lines 324-353); it is `none` when any of those raises. -/
structure RestaurantElem where
  scrollOk : Bool
  statusLabel : Option String
  hrefOk : Bool
  href : String
  ariaOk : Bool
  ariaLabel : String
  response : Option (List PRecord)

/-- The availability read of lines 314-319, with its default. -/
def restaurantStatus (e : RestaurantElem) : String :=
  e.statusLabel.getD "Restaurante abierto"

/-- `extract_products` (lines 303-362).  The handler of line 354 increments
the error counter, reads the aria label, appends the retry entry and returns
`[]`; when the guarded block raised before `restaurant_link` was bound (scroll
or href read failure), the handler's own reference to that local raises a
`NameError` that escapes the task. -/
def extract_products (e : RestaurantElem) (st : ScraperState) :
    ScraperState × Except String (List PRecord) :=
  if e.scrollOk = false then
    ({ st with num_errors := st.num_errors + 1 },
     Except.error (if e.ariaOk then "NameError" else "WebDriverException"))
  else
    let status := restaurantStatus e
    if e.hrefOk = false then
      ({ st with num_errors := st.num_errors + 1 },
       Except.error (if e.ariaOk then "NameError" else "WebDriverException"))
    else
      let st1 := { st with restaurants := st.restaurants ++ [e.href] }
      match e.response with
      | some recs => (st1, Except.ok recs)
      | Option.none =>
        if e.ariaOk then
          ({ st1 with
              num_errors := st1.num_errors + 1,
              links_to_go := st1.links_to_go ++ [(e.ariaLabel, e.href, status)] },
           Except.ok [])
        else
          ({ st1 with num_errors := st1.num_errors + 1 },
           Except.error "WebDriverException")

/-- One dispatched batch (lines 396-402 and 468-473): every submitted task
runs to completion before the results loop; a task exception resurfaces from
`future.result()` after all tasks ran and aborts the caller.  Completion order
is modelled as submission order; none of the proved properties depends on it. -/
def runBatchAux : List RestaurantElem → ScraperState × Bool → ScraperState × Bool
  | [], acc => acc
  | e :: es, acc =>
    let (st', res) := extract_products e acc.1
    match res with
    | Except.ok recs => runBatchAux es ({ st' with products := st'.products ++ recs }, acc.2)
    | Except.error _ => runBatchAux es (st', true)

/-- See `runBatchAux`; a batch starts with no pending exception. -/
def runBatch (es : List RestaurantElem) (st : ScraperState) : ScraperState × Bool :=
  runBatchAux es (st, false)

/-- One round of the nearest-restaurants loop: whether the load-more button is
found (lines 374-385), whether its click succeeds (lines 404-410), and the
newly rendered slice of restaurant entries dispatched in that round. -/
structure PagRound where
  findOk : Bool
  clickOk : Bool
  newElems : List RestaurantElem

/-- How the pagination loop ended. -/
inductive PagExit where
  | finished
  | raised
  | fuelOut
deriving DecidableEq, Repr

/-- The `while no_error` pagination loop (lines 371-410).  The body always
dispatches the round's new slice, even in the round where the button search
failed; the loop continues only when both the button search and the click
succeeded; a task exception resurfacing in the results loop aborts it.  The
source loop is unbounded, hence the explicit fuel. -/
def pagination_loop (env : Nat → PagRound) : Nat → Nat → ScraperState → ScraperState × PagExit
  | 0, _, st => (st, PagExit.fuelOut)
  | fuel + 1, k, st =>
    if (runBatch (env k).newElems st).2 then
      ((runBatch (env k).newElems st).1, PagExit.raised)
    else if (env k).findOk && (env k).clickOk then
      pagination_loop env fuel (k + 1) (runBatch (env k).newElems st).1
    else ((runBatch (env k).newElems st).1, PagExit.finished)

/-- Environment of one category (lines 426-474): whether its click succeeded
(failure skips the category) and the listing rendered for it (`none` when the
wait found no restaurants, also skipping the category). -/
structure CategoryEnv where
  clickOk : Bool
  listing : Option (List RestaurantElem)

/-- The filter of lines 455-459: keep only restaurants whose link is not yet
in the visited accumulator. -/
def category_batch (visited : List String) (c : CategoryEnv) : List RestaurantElem :=
  (c.listing.getD []).filter (fun e => decide (e.href ∉ visited))

/-- One category iteration: skip on click failure or empty listing, else
dispatch the filtered batch.  Returns the state, whether a task exception
resurfaced, and the dispatched links. -/
def category_step (st : ScraperState) (c : CategoryEnv) :
    ScraperState × Bool × List String :=
  if c.clickOk = false then (st, false, [])
  else
    match c.listing with
    | Option.none => (st, false, [])
    | some _ =>
      ((runBatch (category_batch st.restaurants c) st).1,
       (runBatch (category_batch st.restaurants c) st).2,
       (category_batch st.restaurants c).map (fun e => e.href))

/-- The category phase (lines 426-474), also returning the dispatched links of
each category batch. -/
def category_phase : List CategoryEnv → ScraperState → ScraperState × Bool × List (List String)
  | [], st => (st, false, [])
  | c :: cs, st =>
    if (category_step st c).2.1 then ((category_step st c).1, true, [(category_step st c).2.2])
    else
      ((category_phase cs (category_step st c).1).1,
       (category_phase cs (category_step st c).1).2.1,
       (category_step st c).2.2 :: (category_phase cs (category_step st c).1).2.2)

/-- Environment of one DOM-scraped product element (lines 224-259): `ok` is
false when any of its field reads raises inside `scrap_product`. -/
structure ProductElem where
  ok : Bool
  isPopular : Bool
  name : String
  description : String
  priceDiscount : Option String
  price : String

/-- `scrap_product` (lines 210-267): read the visible fields of one product
element; every failure is caught, logged and turned into the empty record.  It
can neither raise nor touch any scraper state. -/
def scrap_product (p : ProductElem) (rest : String) (status : String)
    (cat : Option String) : PRecord :=
  if p.ok = false then []
  else
    [Cell.b p.isPopular, Cell.s p.name, Cell.s p.description,
     (match p.priceDiscount with | some d => Cell.s d | Option.none => Cell.none),
     Cell.s p.price, Cell.s rest, Cell.s status,
     (match cat with | some c => Cell.s c | Option.none => Cell.none)]

/-- Environment of one `scrap_restaurante` call: whether navigation and
element discovery succeed, the optional category header, and the product
elements found. -/
structure RestaurantPage where
  navOk : Bool
  category : Option String
  productElems : List ProductElem

/-- `scrap_restaurante` (lines 269-301): the DOM fallback pass over one queued
restaurant.  Every `scrap_product` result (including empty ones) is appended
to the product accumulator; all failures are caught and logged.  The metadata
error counter is never modified here. -/
def scrap_restaurante (page : RestaurantPage) (entry : RetryEntry)
    (st : ScraperState) : ScraperState :=
  if page.navOk = false then st
  else
    { st with products := st.products ++
        page.productElems.map (fun p => scrap_product p entry.1 entry.2.2 page.category) }

/-- The retry phase (lines 476-482): the queue is first deduplicated with set
semantics over the whole (name, link, status) triple, reassigned to the state,
and each remaining entry is then scraped one at a time, sequentially, through
the DOM fallback.  The iteration order of a Python set is arbitrary; the model
keeps first occurrences, and no property proved below depends on the order. -/
def retry_phase (pages : RetryEntry → RestaurantPage) (st : ScraperState) : ScraperState :=
  let q := st.links_to_go.dedup
  q.foldl (fun s entry => scrap_restaurante (pages entry) entry s)
    { st with links_to_go := q }

/-- Environment of a whole `extract_data` run. -/
structure ExtractEnv where
  pagRounds : Nat → PagRound
  categories : List CategoryEnv
  retryPages : RetryEntry → RestaurantPage

/-- `extract_data` (lines 364-483): the nearest-restaurants pagination loop,
then the category pass, then the sequential retry pass.  The boolean result
records whether an exception escaped (aborting the run before the retry pass
or during the phases); the source loop is unbounded, so exhausting the fuel is
reported like an abort. -/
def extract_data (env : ExtractEnv) (fuel : Nat) (st : ScraperState) :
    ScraperState × Bool :=
  match pagination_loop env.pagRounds fuel 0 st with
  | (st1, PagExit.raised) => (st1, true)
  | (st1, PagExit.fuelOut) => (st1, true)
  | (st1, PagExit.finished) =>
    if (category_phase env.categories st1).2.1 then
      ((category_phase env.categories st1).1, true)
    else (retry_phase env.retryPages (category_phase env.categories st1).1, false)

/-- Outcome environment of one full run: which stage raises an unexpected
exception, and how many records the cleaned dataset holds when `save_data`
runs.  A `process_data` failure is caught inside that method (line 551) and
does not abort the run. -/
structure RunEnv where
  loginRaises : Bool
  extractRaises : Bool
  processRaises : Bool
  saveDataRaises : Bool
  saveMetadataRaises : Bool
  numRecords : Nat

/-- What a run leaves behind: was a dataset file written, was the metadata
report row appended, was a fatal error logged by `main`. -/
structure RunReport where
  datasetWritten : Bool
  metadataSaved : Bool
  fatalLogged : Bool
deriving DecidableEq, Repr

/-- `save_data` (lines 555-595): returns (written, raised); an empty dataset
is not written and returns early without raising. -/
def save_data (env : RunEnv) : Bool × Bool :=
  if env.numRecords = 0 then (false, false)
  else if env.saveDataRaises then (false, true)
  else (true, false)

/-- `save_metadata` (lines 597-645): returns (saved, raised). -/
def save_metadata (env : RunEnv) : Bool × Bool :=
  if env.saveMetadataRaises then (false, true) else (true, false)

/-- `run` (lines 647-653) under `main`'s try/except/finally (lines 688-699):
login, extraction, cleaning, dataset save, metadata save, in that order; the
first escaping exception skips every later step and is logged as fatal;
`process_data` catches its own exceptions and never aborts the sequence. -/
def mainRun (env : RunEnv) : RunReport :=
  if env.loginRaises then ⟨false, false, true⟩
  else if env.extractRaises then ⟨false, false, true⟩
  else
    let (written, dRaised) := save_data env
    if dRaised then ⟨written, false, true⟩
    else
      let (saved, mRaised) := save_metadata env
      ⟨written, saved, mRaised⟩

/-- Whether an `extract_products` task raises out of its own handler: the
guarded block failed before the link was bound, or the handler's aria-label
read itself failed. -/
def taskRaises (e : RestaurantElem) : Bool :=
  !e.scrollOk || !e.hrefOk || (e.response.isNone && !e.ariaOk)

/-- The state after the first `n` rounds of the pagination loop, round `k`
first: each round dispatches its slice of newly rendered entries. -/
def runRounds (env : Nat → PagRound) (k : Nat) : Nat → ScraperState → ScraperState
  | 0, st => st
  | n + 1, st => runRounds env (k + 1) n (runBatch (env k).newElems st).1

/-- Inverse of the displayed price mapping: drop the period thousands
separators, read the comma as the decimal separator and the last two
characters as the cents digits. -/
def parseDisplay (t : String) : Option Flt :=
  match (t.data.filter (fun c => c ≠ '.')).reverse with
  | c1 :: c2 :: ',' :: rest =>
    if c1.isDigit && c2.isDigit then
      (digitsVal rest.reverse).map
        (fun v => ⟨((v * 100 + (10 * (c2.toNat - 48) + (c1.toNat - 48)) : Nat) : Int), 100⟩)
    else Option.none
  | _ => Option.none

/-- Two raw records that agree on restaurant and product, one with the empty
string and one with a missing description: distinct duplicate keys at dedup
time, equal after the empty-string nulling of line 512. -/
def recA : List Cell :=
  [Cell.b false, Cell.s "P", Cell.s "", Cell.f ⟨1, 1⟩, Cell.f ⟨2, 1⟩,
   Cell.s "R", Cell.s "Abierto", Cell.s "C"]

/-- See `recA`. -/
def recB : List Cell :=
  [Cell.b false, Cell.s "P", Cell.none, Cell.f ⟨1, 1⟩, Cell.f ⟨3, 1⟩,
   Cell.s "R", Cell.s "Abierto", Cell.s "C"]

/-- The cleaned row the pipeline produces from `recA`. -/
def outA1 : Row :=
  ⟨Cell.s "", Cell.s "P", Cell.none, Cell.s "1,00", Cell.s "2,00",
   Cell.s "R", Cell.s "Abierto", Cell.s "C", Cell.s currentDateStr⟩

/-- The cleaned row the pipeline produces from `recB`. -/
def outA2 : Row :=
  ⟨Cell.s "", Cell.s "P", Cell.none, Cell.s "1,00", Cell.s "3,00",
   Cell.s "R", Cell.s "Abierto", Cell.s "C", Cell.s currentDateStr⟩

/-- A raw record whose discounted price equals its list price. -/
def rec7 : List Cell :=
  [Cell.b true, Cell.s "P", Cell.s "D", Cell.f ⟨5, 1⟩, Cell.f ⟨5, 1⟩,
   Cell.s "R", Cell.s "A", Cell.s "C"]

/-- The cleaned row the pipeline produces from `rec7`. -/
def out7 : Row :=
  ⟨Cell.s "popular", Cell.s "P", Cell.s "D", Cell.s "nan", Cell.s "5,00",
   Cell.s "R", Cell.s "A", Cell.s "C", Cell.s currentDateStr⟩

/-- A restaurant element whose scroll-into-view raises before the link local
is bound; every later read would succeed. -/
def elemScrollFail : RestaurantElem :=
  ⟨false, Option.none, true, "https://www.rappi.com.pe/restaurantes/1-r", true, "R",
   Option.none⟩

/-- A restaurant element whose link read succeeds but whose captured-response
wait fails: a converted (queued) failure. -/
def elemNoResponse : RestaurantElem :=
  ⟨true, some "Abierto", true, "L1", true, "R1", Option.none⟩

/-- A restaurant element that succeeds and yields one record. -/
def elemOkOne : RestaurantElem :=
  ⟨true, some "Abierto", true, "L2", true, "R2", some [[Cell.b false, Cell.s "X"]]⟩

/-- The empty scraper state. -/
def st0 : ScraperState := ⟨[], [], [], 0⟩

/-- A non-popular row and a popular row sharing the duplicate key. -/
def rW1 : Row :=
  ⟨Cell.b false, Cell.s "P", Cell.s "D", Cell.f ⟨1, 1⟩, Cell.f ⟨2, 1⟩,
   Cell.s "R", Cell.s "A", Cell.s "C", Cell.s currentDateStr⟩

/-- See `rW1`. -/
def rW2 : Row :=
  ⟨Cell.b true, Cell.s "P", Cell.s "D", Cell.f ⟨3, 1⟩, Cell.f ⟨4, 1⟩,
   Cell.s "R", Cell.s "A", Cell.s "C", Cell.s currentDateStr⟩

theorem scrap_restaurante_num_errors (page : RestaurantPage) (entry : RetryEntry)
    (st : ScraperState) : (scrap_restaurante page entry st).num_errors = st.num_errors := by
  unfold scrap_restaurante
  split <;> rfl

theorem foldl_scrap_num_errors (pages : RetryEntry → RestaurantPage) :
    ∀ (q : List RetryEntry) (st : ScraperState),
      (q.foldl (fun s entry => scrap_restaurante (pages entry) entry s) st).num_errors =
        st.num_errors
  | [], _ => rfl
  | e :: q, st => by
    rw [List.foldl_cons, foldl_scrap_num_errors pages q]
    exact scrap_restaurante_num_errors (pages e) e st

theorem retry_phase_num_errors (pages : RetryEntry → RestaurantPage) (st : ScraperState) :
    (retry_phase pages st).num_errors = st.num_errors := by
  unfold retry_phase
  exact foldl_scrap_num_errors pages _ _

theorem extract_products_num_errors (e : RestaurantElem) (st : ScraperState) :
    (extract_products e st).1.num_errors =
      st.num_errors + (if e.scrollOk && e.hrefOk && e.response.isSome then 0 else 1) := by
  rcases e with ⟨sc, sl, ho, hr, ao, al, resp⟩
  cases sc <;> cases ho <;> cases resp <;> cases ao <;>
    simp [extract_products, Option.isSome, restaurantStatus]

/-- C10: the error counter is incremented only by the network-path task
`extract_products` (by exactly one per failed task); the DOM fallback
`scrap_restaurante` (hence also `scrap_product`, which has no access to any
state) and the whole retry phase leave `num_errors` unchanged, so the final
report's error count excludes retry-phase failures. -/
theorem claim_C10 : ∀ (page : RestaurantPage) (entry : RetryEntry)
    (pages : RetryEntry → RestaurantPage) (st : ScraperState) (e : RestaurantElem),
    (scrap_restaurante page entry st).num_errors = st.num_errors ∧
    (retry_phase pages st).num_errors = st.num_errors ∧
    (extract_products e st).1.num_errors =
      st.num_errors + (if e.scrollOk && e.hrefOk && e.response.isSome then 0 else 1) :=
  fun page entry pages st e =>
    ⟨scrap_restaurante_num_errors page entry st, retry_phase_num_errors pages st,
     extract_products_num_errors e st⟩

/-- C9: before the retry pass, the queue is deduplicated with set semantics
over the whole (name, link, status) triple — the deduplicated queue has no
repeated entry, yet keeps exactly the enqueued triples — and the pass is the
sequential fold of the DOM fallback `scrap_restaurante` over it, one entry at
a time, not a pooled dispatch. -/
theorem claim_C9 : ∀ (pages : RetryEntry → RestaurantPage) (st : ScraperState),
    retry_phase pages st =
      (st.links_to_go.dedup).foldl (fun s entry => scrap_restaurante (pages entry) entry s)
        { st with links_to_go := st.links_to_go.dedup } ∧
    st.links_to_go.dedup.Nodup ∧
    ∀ entry : RetryEntry, entry ∈ st.links_to_go.dedup ↔ entry ∈ st.links_to_go :=
  fun _ st => ⟨rfl, List.nodup_dedup st.links_to_go, fun _ => List.mem_dedup⟩

/-- C3, counterexample: a task whose scroll-into-view raises is not converted
into a queued failure — the handler increments the error counter, then its own
reference to the unbound `restaurant_link` local raises a `NameError` that
escapes the task (and nothing is queued for retry). -/
theorem claim_C3_counterexample :
    extract_products elemScrollFail st0 =
      ({ st0 with num_errors := 1 }, Except.error "NameError") := rfl

/-- C3, amended: exceptions raised after the link attribute has been read are
caught at the task boundary and converted into a failure result — the error
counter is incremented, the (name, link, status) triple is queued for retry,
and the empty record list is returned — provided the handler's own aria-label
read succeeds; a successful task leaves the counter and queue alone and
returns its records.  (Exceptions raised before the link is bound escape the
task, see the counterexample.) -/
theorem claim_C3 : ∀ (e : RestaurantElem) (st : ScraperState),
    e.scrollOk = true → e.hrefOk = true →
    (e.response = Option.none → e.ariaOk = true →
      extract_products e st =
        ({ st with restaurants := st.restaurants ++ [e.href],
                   links_to_go := st.links_to_go ++ [(e.ariaLabel, e.href, restaurantStatus e)],
                   num_errors := st.num_errors + 1 },
         Except.ok [])) ∧
    (∀ recs, e.response = some recs →
      extract_products e st =
        ({ st with restaurants := st.restaurants ++ [e.href] }, Except.ok recs)) := by
  intro e st hsc hhr
  constructor
  · intro hresp haria
    simp [extract_products, hsc, hhr, hresp, haria]
  · intro recs hresp
    simp [extract_products, hsc, hhr, hresp]

/-- C3, witness: the amended statement applied to a concrete failing task and
a concrete succeeding task. -/
theorem claim_C3_witness :
    extract_products elemNoResponse st0 =
      (⟨[], ["L1"], [("R1", "L1", "Abierto")], 1⟩, Except.ok []) ∧
    extract_products elemOkOne st0 =
      (⟨[], ["L2"], [], 0⟩, Except.ok [[Cell.b false, Cell.s "X"]]) := by
  constructor
  · exact ((claim_C3 elemNoResponse st0 rfl rfl).1 rfl rfl).trans rfl
  · exact ((claim_C3 elemOkOne st0 rfl rfl).2 [[Cell.b false, Cell.s "X"]] rfl).trans rfl

/-- C2, counterexample: an unexpected exception during extraction is caught
and logged by `main`, but `save_metadata` is never reached on that path — the
run report is not produced, contradicting the claim that a report survives
every partial failure. -/
theorem claim_C2_counterexample :
    mainRun ⟨false, true, false, false, false, 5⟩ =
      ⟨false, false, true⟩ := rfl

/-- C2, amended: the run report is appended exactly when login, extraction,
the dataset save and the report save itself all finish without an escaping
exception — a `process_data` failure is caught inside that method and does
not prevent the report, but a fatal extraction error does; the dataset file is
written only when at least one record survived and everything before it
succeeded; `main` logs a fatal error exactly when some stage raised. -/
theorem claim_C2 : ∀ env : RunEnv,
    (mainRun env).metadataSaved =
      (!env.loginRaises && !env.extractRaises && !(save_data env).2 &&
        !env.saveMetadataRaises) ∧
    ((mainRun env).datasetWritten = true →
      0 < env.numRecords ∧ env.saveDataRaises = false ∧
      env.loginRaises = false ∧ env.extractRaises = false) ∧
    (mainRun env).fatalLogged =
      (env.loginRaises || env.extractRaises || (save_data env).2 ||
        env.saveMetadataRaises) := by
  intro env
  obtain ⟨l, ex, p, sd, sm, n⟩ := env
  cases l <;> cases ex <;> cases sd <;> cases sm <;>
    by_cases hn : n = 0 <;>
    simp [mainRun, save_data, save_metadata, hn] <;> omega

/-- C2, witness: a fully successful run with three records writes the dataset
and appends the report. -/
theorem claim_C2_witness :
    (mainRun ⟨false, false, false, false, false, 3⟩).datasetWritten = true ∧
    0 < (3 : Nat) :=
  ⟨rfl, (((claim_C2 ⟨false, false, false, false, false, 3⟩).2.1) rfl).1⟩

theorem restGrows_trans {a b c : ScraperState}
    (h1 : ∃ t, b.restaurants = a.restaurants ++ t)
    (h2 : ∃ t, c.restaurants = b.restaurants ++ t) :
    ∃ t, c.restaurants = a.restaurants ++ t := by
  obtain ⟨t1, ht1⟩ := h1
  obtain ⟨t2, ht2⟩ := h2
  exact ⟨t1 ++ t2, by rw [ht2, ht1, List.append_assoc]⟩

theorem extract_products_restaurants (e : RestaurantElem) (st : ScraperState) :
    (extract_products e st).1.restaurants =
      st.restaurants ++ (if e.scrollOk && e.hrefOk then [e.href] else []) := by
  rcases e with ⟨sc, sl, ho, hr, ao, al, resp⟩
  cases sc <;> cases ho <;> cases resp <;> cases ao <;>
    simp [extract_products, restaurantStatus]

theorem runBatchAux_restaurants :
    ∀ (es : List RestaurantElem) (acc : ScraperState × Bool),
      ∃ t, (runBatchAux es acc).1.restaurants = acc.1.restaurants ++ t := by
  intro es
  induction es with
  | nil => exact fun acc => ⟨[], by simp [runBatchAux]⟩
  | cons e es ih =>
    intro acc
    have hgrow : ∃ t, (extract_products e acc.1).1.restaurants = acc.1.restaurants ++ t :=
      ⟨_, extract_products_restaurants e acc.1⟩
    simp only [runBatchAux]
    rcases hres : extract_products e acc.1 with ⟨st', res⟩
    rw [hres] at hgrow
    cases res with
    | ok recs =>
      exact restGrows_trans hgrow (ih ({ st' with products := st'.products ++ recs }, acc.2))
    | error msg =>
      exact restGrows_trans hgrow (ih (st', true))

theorem runBatch_restaurants (es : List RestaurantElem) (st : ScraperState) :
    ∃ t, (runBatch es st).1.restaurants = st.restaurants ++ t :=
  runBatchAux_restaurants es (st, false)

theorem runBatchAux_mem_restaurants (es : List RestaurantElem) (acc : ScraperState × Bool)
    {link : String} (h : link ∈ acc.1.restaurants) :
    link ∈ (runBatchAux es acc).1.restaurants := by
  obtain ⟨t, ht⟩ := runBatchAux_restaurants es acc
  rw [ht]
  exact List.mem_append_left t h

theorem pagination_loop_restaurants (env : Nat → PagRound) :
    ∀ (fuel k : Nat) (st : ScraperState),
      ∃ t, (pagination_loop env fuel k st).1.restaurants = st.restaurants ++ t := by
  intro fuel
  induction fuel with
  | zero => exact fun k st => ⟨[], by simp [pagination_loop]⟩
  | succ fuel ih =>
    intro k st
    simp only [pagination_loop]
    have hgrow := runBatch_restaurants (env k).newElems st
    split
    · simpa using hgrow
    · split
      · exact restGrows_trans hgrow (ih (k + 1) _)
      · simpa using hgrow

theorem category_step_restaurants (st : ScraperState) (c : CategoryEnv) :
    ∃ t, (category_step st c).1.restaurants = st.restaurants ++ t := by
  unfold category_step
  split
  · exact ⟨[], by simp⟩
  · split
    · exact ⟨[], by simp⟩
    · simpa using runBatch_restaurants (category_batch st.restaurants c) st

theorem category_phase_restaurants :
    ∀ (cs : List CategoryEnv) (st : ScraperState),
      ∃ t, (category_phase cs st).1.restaurants = st.restaurants ++ t := by
  intro cs
  induction cs with
  | nil => exact fun st => ⟨[], by simp [category_phase]⟩
  | cons c cs ih =>
    intro st
    simp only [category_phase]
    split
    · simpa using category_step_restaurants st c
    · simpa using restGrows_trans (category_step_restaurants st c) (ih (category_step st c).1)

theorem scrap_restaurante_restaurants (page : RestaurantPage) (entry : RetryEntry)
    (st : ScraperState) : (scrap_restaurante page entry st).restaurants = st.restaurants := by
  unfold scrap_restaurante
  split <;> rfl

theorem foldl_scrap_restaurants (pages : RetryEntry → RestaurantPage) :
    ∀ (q : List RetryEntry) (st : ScraperState),
      (q.foldl (fun s entry => scrap_restaurante (pages entry) entry s) st).restaurants =
        st.restaurants
  | [], _ => rfl
  | e :: q, st => by
    rw [List.foldl_cons, foldl_scrap_restaurants pages q]
    exact scrap_restaurante_restaurants (pages e) e st

theorem retry_phase_restaurants (pages : RetryEntry → RestaurantPage) (st : ScraperState) :
    (retry_phase pages st).restaurants = st.restaurants := by
  unfold retry_phase
  exact foldl_scrap_restaurants pages _ _

theorem extract_data_restaurants (env : ExtractEnv) (fuel : Nat) (st : ScraperState) :
    ∃ t, (extract_data env fuel st).1.restaurants = st.restaurants ++ t := by
  unfold extract_data
  split
  · next st1 heq =>
    have h1 := pagination_loop_restaurants env.pagRounds fuel 0 st
    rw [heq] at h1
    simpa using h1
  · next st1 heq =>
    have h1 := pagination_loop_restaurants env.pagRounds fuel 0 st
    rw [heq] at h1
    simpa using h1
  · next st1 heq =>
    have h1 := pagination_loop_restaurants env.pagRounds fuel 0 st
    rw [heq] at h1
    have h1' : ∃ t, st1.restaurants = st.restaurants ++ t := by simpa using h1
    have h2 := category_phase_restaurants env.categories st1
    split
    · simpa using restGrows_trans h1' h2
    · simpa [retry_phase_restaurants] using restGrows_trans h1' h2

theorem category_step_dispatch (st : ScraperState) (c : CategoryEnv) {link : String}
    (hlink : link ∈ st.restaurants) : link ∉ (category_step st c).2.2 := by
  unfold category_step
  split
  · simp
  · split
    · simp
    · intro hmem
      simp only at hmem
      obtain ⟨e, he, hhref⟩ := List.mem_map.mp hmem
      have hpred := (List.mem_filter.mp he).2
      rw [hhref] at hpred
      have hnot : link ∉ st.restaurants := by simpa using hpred
      exact hnot hlink

theorem category_phase_no_redispatch :
    ∀ (cs : List CategoryEnv) (st : ScraperState) (link : String),
      link ∈ st.restaurants →
      ∀ b ∈ (category_phase cs st).2.2, link ∉ b := by
  intro cs
  induction cs with
  | nil => intro st link _ b hb; simp [category_phase] at hb
  | cons c cs ih =>
    intro st link hlink b hb
    have hlink' : link ∈ (category_step st c).1.restaurants := by
      obtain ⟨t, ht⟩ := category_step_restaurants st c
      rw [ht]
      exact List.mem_append_left t hlink
    simp only [category_phase] at hb
    split at hb
    · simp only [List.mem_singleton] at hb
      subst hb
      exact category_step_dispatch st c hlink
    · simp only [List.mem_cons] at hb
      rcases hb with rfl | hb
      · exact category_step_dispatch st c hlink
      · exact ih (category_step st c).1 link hlink' b hb

/-- C4, counterexample: after a task whose captured-response wait failed, the
failed restaurant's link is nevertheless in the visited accumulator (it is
appended before the wait, line 322), while the restaurant itself produced no
records and sits in the retry queue — so visited is not "exactly the links
already successfully processed". -/
theorem claim_C4_counterexample :
    (extract_products elemNoResponse st0).1.restaurants = ["L1"] ∧
    (extract_products elemNoResponse st0).2 = Except.ok [] ∧
    (extract_products elemNoResponse st0).1.links_to_go = [("R1", "L1", "Abierto")] :=
  ⟨rfl, rfl, rfl⟩

/-- C4, amended: the visited link accumulator only ever grows by appending
(across the whole of `extract_data`, any fuel, any environment), and every
category batch is filtered against the accumulator at dispatch time, so a link
present in it — whether it got there in the nearest-restaurants phase or in an
earlier category — is never dispatched in any later category batch.  The
accumulator records every link read (line 322), including those of failed
attempts, not only successfully processed ones. -/
theorem claim_C4 : ∀ (env : ExtractEnv) (fuel : Nat) (st : ScraperState)
    (cs : List CategoryEnv) (st' : ScraperState) (link : String),
    (∃ t, (extract_data env fuel st).1.restaurants = st.restaurants ++ t) ∧
    (link ∈ st'.restaurants → ∀ b ∈ (category_phase cs st').2.2, link ∉ b) :=
  fun env fuel st cs st' link =>
    ⟨extract_data_restaurants env fuel st,
     fun h => category_phase_no_redispatch cs st' link h⟩

/-- C4, witness: a concrete already-visited link is not dispatched by a
category whose listing contains it. -/
theorem claim_C4_witness :
    ("L2" : String) ∈ (⟨[], ["L2"], [], 0⟩ : ScraperState).restaurants ∧
    ∀ b ∈ (category_phase [⟨true, some [elemOkOne]⟩] ⟨[], ["L2"], [], 0⟩).2.2,
      ("L2" : String) ∉ b := by
  refine ⟨by simp, ?_⟩
  exact (claim_C4 ⟨fun _ => ⟨false, false, []⟩, [], fun _ => ⟨false, Option.none, []⟩⟩ 0 st0
    [⟨true, some [elemOkOne]⟩] ⟨[], ["L2"], [], 0⟩ "L2").2 (by simp)

theorem extract_products_no_raise (e : RestaurantElem) (st : ScraperState)
    (h : taskRaises e = false) :
    ∃ st' recs, extract_products e st = (st', Except.ok recs) := by
  rcases e with ⟨sc, sl, ho, hr, ao, al, resp⟩
  cases sc <;> cases ho <;> cases resp <;> cases ao <;>
    first
      | exact ⟨_, _, rfl⟩
      | exact absurd h (by simp [taskRaises])

theorem runBatchAux_no_raise :
    ∀ (es : List RestaurantElem) (acc : ScraperState × Bool),
      (es.all (fun e => !taskRaises e)) = true →
      (runBatchAux es acc).2 = acc.2 := by
  intro es
  induction es with
  | nil => intro acc _; rfl
  | cons e es ih =>
    intro acc h
    simp only [List.all_cons, Bool.and_eq_true] at h
    obtain ⟨st', recs, heq⟩ :=
      extract_products_no_raise e acc.1 (by simpa using h.1)
    simp only [runBatchAux, heq]
    exact ih _ h.2

theorem runBatch_no_raise (es : List RestaurantElem) (st : ScraperState)
    (h : (es.all (fun e => !taskRaises e)) = true) :
    (runBatch es st).2 = false :=
  runBatchAux_no_raise es (st, false) h

theorem pagination_loop_terminates (env : Nat → PagRound) :
    ∀ (N k : Nat) (st : ScraperState),
      (∀ i, i ≤ N → ((env (k + i)).newElems.all (fun e => !taskRaises e)) = true) →
      (∀ i, i < N → (env (k + i)).findOk = true ∧ (env (k + i)).clickOk = true) →
      ((env (k + N)).findOk = false ∨ (env (k + N)).clickOk = false) →
      ∀ fuel, N < fuel →
        pagination_loop env fuel k st = (runRounds env k (N + 1) st, PagExit.finished) := by
  intro N
  induction N with
  | zero =>
    intro k st hall _ hfail fuel hfuel
    obtain ⟨f, rfl⟩ : ∃ f, fuel = f + 1 := ⟨fuel - 1, by omega⟩
    have hnr : (runBatch (env k).newElems st).2 = false :=
      runBatch_no_raise _ _ (by simpa using hall 0 (by omega))
    have hff : ((env k).findOk && (env k).clickOk) = false := by
      rcases hfail with h | h <;> simp at h <;> simp [h]
    simp only [pagination_loop, hnr, hff]
    rfl
  | succ N ih =>
    intro k st hall hpre hfail fuel hfuel
    obtain ⟨f, rfl⟩ : ∃ f, fuel = f + 1 := ⟨fuel - 1, by omega⟩
    have hnr : (runBatch (env k).newElems st).2 = false :=
      runBatch_no_raise _ _ (by simpa using hall 0 (by omega))
    have hcont : ((env k).findOk && (env k).clickOk) = true := by
      have h0 := hpre 0 (by omega)
      simp at h0
      simp [h0.1, h0.2]
    simp only [pagination_loop, hnr, hcont]
    have hrec := ih (k + 1) (runBatch (env k).newElems st).1
      (fun i hi => by
        have harith : k + 1 + i = k + (i + 1) := by omega
        rw [harith]
        exact hall (i + 1) (by omega))
      (fun i hi => by
        have harith : k + 1 + i = k + (i + 1) := by omega
        rw [harith]
        exact hpre (i + 1) (by omega))
      (by
        have harith : k + 1 + N = k + (N + 1) := by omega
        rw [harith]
        exact hfail)
      f (by omega)
    simp only [Bool.false_eq_true, if_false]
    rw [hrec]
    rfl

/-- C8: the nearest-restaurants pagination loop ends after finitely many
rounds whenever some round fails to find the load-more control or fails to
click it: if every round before `N` finds and clicks the control and round `N`
does not (control gone, or click failed), then for every sufficient fuel bound
the loop returns after exactly the rounds `0..N`, with the finished exit.  In
particular, if the control never disappears but the click fails at attempt
`N`, the loop ends at that attempt. -/
theorem claim_C8 : ∀ (env : Nat → PagRound) (st : ScraperState) (N : Nat),
    (∀ k, k ≤ N → ((env k).newElems.all (fun e => !taskRaises e)) = true) →
    (∀ k, k < N → (env k).findOk = true ∧ (env k).clickOk = true) →
    ((env N).findOk = false ∨ (env N).clickOk = false) →
    ∀ fuel, N < fuel →
      pagination_loop env fuel 0 st = (runRounds env 0 (N + 1) st, PagExit.finished) := by
  intro env st N hall hpre hfail fuel hfuel
  exact pagination_loop_terminates env N 0 st
    (fun i hi => by simpa using hall i hi)
    (fun i hi => by simpa using hpre i hi)
    (by simpa using hfail)
    fuel hfuel

/-- C8, witness: with the control always present, empty round slices and the
click failing on attempt 1, the loop ends with the finished exit after rounds
0 and 1, at any fuel. -/
theorem claim_C8_witness :
    pagination_loop (fun k => ⟨true, decide (k ≠ 1), []⟩) 5 0 st0 =
      (runRounds (fun k => ⟨true, decide (k ≠ 1), []⟩) 0 2 st0, PagExit.finished) :=
  claim_C8 (fun k => ⟨true, decide (k ≠ 1), []⟩) st0 1
    (fun _ _ => rfl)
    (fun k hk => by interval_cases k; exact ⟨rfl, rfl⟩)
    (Or.inr (by decide))
    5 (by omega)

/-- C6: after the discounted price has been rounded to two decimals
(lines 520-522), the nulling step of lines 523-529 nulls it exactly when it
equals the list price, and keeps the rounded value otherwise; equality is the
pandas numeric comparison of the two float columns. -/
theorem claim_C6 : ∀ (r : Row) (d l : Flt),
    r.precioConDescuento = Cell.f d → r.precioSinDescuento = Cell.f l →
    (nullDiscountRow (roundRow r)).precioConDescuento =
      (if d.round2.eqv l then Cell.none else Cell.f d.round2) := by
  intro r d l hd hl
  simp only [roundRow, nullDiscountRow, hd, hl]
  split <;> simp_all

/-- C6, witness: a 5.00 discount against a 5.00 list price is nulled, a 4.00
discount against a 5.00 list price is kept as its rounded value. -/
theorem claim_C6_witness :
    (nullDiscountRow (roundRow ⟨Cell.b true, Cell.s "P", Cell.s "D", Cell.f ⟨5, 1⟩,
      Cell.f ⟨5, 1⟩, Cell.s "R", Cell.s "A", Cell.s "C",
      Cell.s currentDateStr⟩)).precioConDescuento = Cell.none ∧
    (nullDiscountRow (roundRow ⟨Cell.b true, Cell.s "P", Cell.s "D", Cell.f ⟨4, 1⟩,
      Cell.f ⟨5, 1⟩, Cell.s "R", Cell.s "A", Cell.s "C",
      Cell.s currentDateStr⟩)).precioConDescuento = Cell.f ⟨400, 100⟩ := by
  constructor
  · rw [claim_C6 _ ⟨5, 1⟩ ⟨5, 1⟩ rfl rfl]
    decide
  · rw [claim_C6 _ ⟨4, 1⟩ ⟨5, 1⟩ rfl rfl]
    decide

theorem digitChar_facts (d : Nat) (h : d < 10) :
    (Nat.digitChar d).isDigit = true ∧ swapChar (Nat.digitChar d) = Nat.digitChar d ∧
    ((Nat.digitChar d).toNat - 48) = d ∧ Nat.digitChar d ≠ ',' ∧ Nat.digitChar d ≠ '.' := by
  interval_cases d <;> exact ⟨rfl, rfl, rfl, by decide, by decide⟩

theorem digitsRevGo_lt_ten : ∀ (fuel n : Nat), ∀ d ∈ digitsRevGo fuel n, d < 10 := by
  intro fuel
  induction fuel with
  | zero => intro n d hd; simp [digitsRevGo] at hd
  | succ fuel ih =>
    intro n d hd
    cases n with
    | zero => simp [digitsRevGo] at hd
    | succ m =>
      simp only [digitsRevGo, List.mem_cons] at hd
      rcases hd with rfl | hd
      · exact Nat.mod_lt _ (by omega)
      · exact ih _ d hd

theorem digitsRev_lt_ten (n : Nat) : ∀ d ∈ digitsRev n, d < 10 :=
  digitsRevGo_lt_ten n n

theorem digitsRevGo_fuel (n : Nat) :
    ∀ (f g : Nat), n ≤ f → n ≤ g → digitsRevGo f n = digitsRevGo g n := by
  induction n using Nat.strong_induction_on with
  | _ n ih =>
    intro f g hf hg
    cases n with
    | zero => cases f <;> cases g <;> rfl
    | succ m =>
      obtain ⟨f', rfl⟩ : ∃ f', f = f' + 1 := ⟨f - 1, by omega⟩
      obtain ⟨g', rfl⟩ : ∃ g', g = g' + 1 := ⟨g - 1, by omega⟩
      simp only [digitsRevGo]
      have hlt : (m + 1) / 10 < m + 1 := Nat.div_lt_self (by omega) (by omega)
      rw [ih ((m + 1) / 10) hlt f' g' (by omega) (by omega)]

theorem digitsRev_succ (n : Nat) (h : n ≠ 0) :
    digitsRev n = n % 10 :: digitsRev (n / 10) := by
  obtain ⟨m, rfl⟩ : ∃ m, n = m + 1 := ⟨n - 1, by omega⟩
  have hlt : (m + 1) / 10 < m + 1 := Nat.div_lt_self (by omega) (by omega)
  show digitsRevGo (m + 1) (m + 1) = _
  simp only [digitsRevGo]
  rw [digitsRevGo_fuel ((m + 1) / 10) m ((m + 1) / 10) (by omega) (le_refl _)]
  rfl

theorem ofDigitsRev_digitsRev (n : Nat) : ofDigitsRev (digitsRev n) = n := by
  induction n using Nat.strong_induction_on with
  | _ n ih =>
    rcases Nat.eq_zero_or_pos n with rfl | hpos
    · rfl
    · rw [digitsRev_succ n (by omega)]
      simp only [ofDigitsRev]
      rw [ih (n / 10) (Nat.div_lt_self hpos (by omega))]
      omega

theorem group3_swap_filter :
    ∀ (ds : List Nat) (k : Nat), (∀ d ∈ ds, d < 10) →
      ((group3 ds k).map swapChar).filter (fun c => c ≠ '.') = ds.map Nat.digitChar := by
  intro ds
  induction ds with
  | nil => intro k _; rfl
  | cons d ds ih =>
    intro k hds
    have hd := digitChar_facts d (hds d (by simp))
    cases ds with
    | nil =>
      simp [group3, hd.2.1, hd.2.2.2.2]
    | cons d2 ds2 =>
      have hih0 : ∀ x ∈ d2 :: ds2, x < 10 := fun x hx => hds x (by simp [hx])
      cases k with
      | zero =>
        have hswap : swapChar ',' = '.' := rfl
        have hih := ih 2 hih0
        simp only [decide_not] at hih
        simp only [group3, List.map_cons, List.filter_cons, hd.2.1, hswap]
        simp [hd.2.2.2.2, hih]
      | succ k' =>
        have hih := ih k' hih0
        simp only [decide_not] at hih
        simp only [group3, List.map_cons, List.filter_cons]
        simp [hd.2.1, hd.2.2.2.2, hih]

theorem digits_foldl (ds : List Nat) (h : ∀ d ∈ ds, d < 10) :
    ((ds.map Nat.digitChar).reverse).foldl (fun a c => 10 * a + (c.toNat - 48)) 0 =
      ofDigitsRev ds := by
  induction ds with
  | nil => rfl
  | cons d t ih =>
    have hd := digitChar_facts d (h d (by simp))
    simp only [List.map_cons, List.reverse_cons, List.foldl_append, List.foldl_cons,
      List.foldl_nil]
    rw [ih (fun x hx => h x (by simp [hx])), hd.2.2.1]
    simp only [ofDigitsRev]
    omega

theorem digits_all (ds : List Nat) (h : ∀ d ∈ ds, d < 10) :
    ((ds.map Nat.digitChar).reverse).all Char.isDigit = true := by
  rw [List.all_reverse]
  refine List.all_eq_true.mpr fun c hc => ?_
  obtain ⟨d, hd, rfl⟩ := List.mem_map.mp hc
  exact (digitChar_facts d (h d hd)).1

theorem digitsVal_digits (ds : List Nat) (h : ∀ d ∈ ds, d < 10) :
    digitsVal ((ds.map Nat.digitChar).reverse) = some (ofDigitsRev ds) := by
  unfold digitsVal
  rw [if_pos (digits_all ds h), digits_foldl ds h]

theorem cents_natCast (n : Nat) : (Flt.mk (n : Int) 100).cents = (n : Int) := by
  show rndHalfEven (100 * (n : Int)) 100 = (n : Int)
  have hdiv : (100 * (n : Int)) / ((100 : Nat) : Int) = (n : Int) := by
    norm_num
  have hmod : (100 * (n : Int)) % ((100 : Nat) : Int) = 0 := by
    norm_num
  simp only [rndHalfEven, hdiv, hmod]
  norm_num

theorem intChars_swap_filter (m : Nat) :
    ((intChars m).map swapChar).filter (fun c => c ≠ '.') =
      ((if m = 0 then [0] else digitsRev m).map Nat.digitChar).reverse := by
  by_cases hm : m = 0
  · subst hm; rfl
  · rw [if_neg hm]
    unfold intChars
    rw [if_neg hm, List.map_reverse, List.filter_reverse,
      group3_swap_filter (digitsRev m) 2 (digitsRev_lt_ten m)]

theorem display_chars (n : Nat) :
    (swapSep (formatFix2 ⟨(n : Int), 100⟩)).data =
      (intChars (n / 100)).map swapChar ++
        ',' :: [Nat.digitChar (n % 100 / 10 % 10), Nat.digitChar (n % 100 % 10)] := by
  simp only [swapSep, formatFix2, cents_natCast]
  rw [if_neg (Int.not_lt.mpr (Int.natCast_nonneg n))]
  simp only [Int.natAbs_ofNat, List.map_append, List.map_cons, List.map_nil, frac2Chars]
  rw [(digitChar_facts (n % 100 / 10 % 10) (by omega)).2.1,
      (digitChar_facts (n % 100 % 10) (by omega)).2.1]
  rfl

theorem display_scrutinee (n : Nat) :
    ((swapSep (formatFix2 ⟨(n : Int), 100⟩)).data.filter (fun c => c ≠ '.')).reverse =
      Nat.digitChar (n % 100 % 10) :: Nat.digitChar (n % 100 / 10 % 10) :: ',' ::
        ((if n / 100 = 0 then [0] else digitsRev (n / 100)).map Nat.digitChar) := by
  have h1 := digitChar_facts (n % 100 / 10 % 10) (by omega)
  have h2 := digitChar_facts (n % 100 % 10) (by omega)
  have hfilter :
      List.filter (fun c => c ≠ '.')
        (',' :: [Nat.digitChar (n % 100 / 10 % 10), Nat.digitChar (n % 100 % 10)]) =
        ',' :: [Nat.digitChar (n % 100 / 10 % 10), Nat.digitChar (n % 100 % 10)] := by
    simp [List.filter_cons, h1.2.2.2.2, h2.2.2.2.2]
  rw [display_chars n, List.filter_append, intChars_swap_filter (n / 100), hfilter,
    List.reverse_append, List.reverse_reverse]
  rfl

theorem display_roundtrip (n : Nat) :
    parseDisplay (swapSep (formatFix2 ⟨(n : Int), 100⟩)) = some ⟨(n : Int), 100⟩ := by
  have h1 := digitChar_facts (n % 100 / 10 % 10) (by omega)
  have h2 := digitChar_facts (n % 100 % 10) (by omega)
  have hbounds : ∀ d ∈ (if n / 100 = 0 then [0] else digitsRev (n / 100)), d < 10 := by
    split
    · intro d hd; simp at hd; omega
    · exact digitsRev_lt_ten (n / 100)
  have hval : ofDigitsRev (if n / 100 = 0 then [0] else digitsRev (n / 100)) = n / 100 := by
    split
    · next h => simp [ofDigitsRev, h]
    · exact ofDigitsRev_digitsRev (n / 100)
  unfold parseDisplay
  rw [display_scrutinee n]
  simp only [h1.1, h2.1, Bool.and_self, if_pos, List.reverse_reverse]
  rw [digitsVal_digits _ hbounds]
  simp only [Option.map_some']
  rw [hval, h1.2.2.1, h2.2.2.1]
  have harith : n / 100 * 100 + (10 * (n % 100 / 10 % 10) + n % 100 % 10) = n := by omega
  rw [harith]

/-- C5: the price 10000.5 is formatted by lines 530-536 as "10,000.50" and the
separator swap of lines 537-541 turns it into the display string "10.000,50";
the display mapping is invertible — `parseDisplay` recovers the cents value
from the display string, both at 10000.5 (where the recovered 1000050/100
equals the input 100005/10 numerically) and for every exact cents amount. -/
theorem claim_C5 :
    swapSep (formatFix2 ⟨100005, 10⟩) = "10.000,50" ∧
    parseDisplay "10.000,50" = some ⟨1000050, 100⟩ ∧
    Flt.eqv ⟨1000050, 100⟩ ⟨100005, 10⟩ = true ∧
    ∀ n : Nat, parseDisplay (swapSep (formatFix2 ⟨(n : Int), 100⟩)) = some ⟨(n : Int), 100⟩ :=
  ⟨by rfl, by rfl, by rfl, display_roundtrip⟩

/-- C7, counterexample: `process_data` is not idempotent.  On a one-record
input it succeeds, but feeding its own output rows back in fails outright:
output rows carry the added `Fecha` column (nine cells against the eight
declared columns), so the frame constructor raises — re-running the pipeline
on its own output does not reproduce that output. -/
theorem claim_C7_counterexample :
    process_data [rec7] = Except.ok [out7] ∧
    process_data ([out7].map Row.cells) ≠ Except.ok [out7] := by
  refine ⟨rfl, ?_⟩
  intro h
  rw [show process_data ([out7].map Row.cells) =
      Except.error "8 columns passed, passed data had more columns" from rfl] at h
  exact Except.noConfusion h

/-- C7, amended: `process_data` is a pure function of its input (hence
deterministic), but it is not idempotent: whenever it succeeds with a
nonempty output, re-applying it to that output fails at frame construction,
because every output row carries the added `Fecha` column and so has nine
cells against the eight declared columns.  (Even dropping that column, the
price display strings of the output do not parse as floats, see the price
cells of `out7`.) -/
theorem claim_C7 : ∀ (products : List (List Cell)) (out : List Row),
    process_data products = Except.ok out → out ≠ [] →
    process_data (out.map Row.cells) =
      Except.error "8 columns passed, passed data had more columns" := by
  intro products out _ hne
  obtain ⟨o, rest, rfl⟩ : ∃ o rest, out = o :: rest := by
    cases out with
    | nil => exact absurd rfl hne
    | cons o rest => exact ⟨o, rest, rfl⟩
  have herr : toRow (Row.cells o) =
      Except.error "8 columns passed, passed data had more columns" := by
    simp [toRow, Row.cells]
  simp only [process_data, mkFrame, List.map_cons, List.mapM_cons, herr]
  rfl

/-- C7, witness: the amended statement applied to the one-record input. -/
theorem claim_C7_witness :
    process_data [rec7] = Except.ok [out7] ∧
    process_data ([out7].map Row.cells) =
      Except.error "8 columns passed, passed data had more columns" :=
  ⟨rfl, claim_C7 [rec7] [out7] rfl (by simp)⟩

theorem rat_beq_decide (x y : ℚ) : (x == y) = decide (x = y) := rfl

theorem cell_beq_decide (x y : Cell) : (x == y) = decide (x = y) := rfl

theorem cellEqv_symm (a b : Cell) : cellEqv a b = cellEqv b a := by
  cases a <;> cases b <;>
    simp [cellEqv, Flt.eqv, rat_beq_decide, cell_beq_decide, decide_eq_decide, eq_comm]

theorem cellEqv_trans {a b c : Cell} (h1 : cellEqv a b = true) (h2 : cellEqv b c = true) :
    cellEqv a c = true := by
  cases a <;> cases b <;> cases c <;>
    simp_all [cellEqv, Flt.eqv, rat_beq_decide, cell_beq_decide]

theorem cellEqv_keyAsc {a b : Cell} (h : cellEqv a b = true) : cellKeyAsc a = cellKeyAsc b := by
  cases a <;> cases b <;>
    simp_all [cellEqv, Flt.eqv, rat_beq_decide, cell_beq_decide, cellKeyAsc]

theorem dkeyEqv_symm (a b : Cell × Cell × Cell) : dkeyEqv a b = dkeyEqv b a := by
  unfold dkeyEqv
  rw [cellEqv_symm a.1 b.1, cellEqv_symm a.2.1 b.2.1, cellEqv_symm a.2.2 b.2.2]

theorem dkeyEqv_trans {a b c : Cell × Cell × Cell}
    (h1 : dkeyEqv a b = true) (h2 : dkeyEqv b c = true) : dkeyEqv a c = true := by
  simp only [dkeyEqv, Bool.and_eq_true] at h1 h2 ⊢
  exact ⟨⟨cellEqv_trans h1.1.1 h2.1.1, cellEqv_trans h1.1.2 h2.1.2⟩,
         cellEqv_trans h1.2 h2.2⟩

theorem mem_drop_duplicates :
    ∀ (l : List Row) (seen : List (Cell × Cell × Cell)) (r : Row),
      r ∈ drop_duplicates l seen →
      (seen.any (fun k => dkeyEqv (dkey r) k)) = false ∧
      ∃ l1 l2, l = l1 ++ r :: l2 ∧ ∀ x ∈ l1, dkeyEqv (dkey r) (dkey x) = false := by
  intro l
  induction l with
  | nil => intro seen r hr; simp [drop_duplicates] at hr
  | cons a t ih =>
    intro seen r hr
    simp only [drop_duplicates] at hr
    by_cases ha : (seen.any (fun k => dkeyEqv (dkey a) k)) = true
    · rw [if_pos ha] at hr
      obtain ⟨hseen, l1, l2, hdec, hl1⟩ := ih seen r hr
      refine ⟨hseen, a :: l1, l2, by simp [hdec], ?_⟩
      intro x hx
      rcases List.mem_cons.mp hx with rfl | hx
      · rcases Bool.eq_false_or_eq_true (dkeyEqv (dkey r) (dkey x)) with h' | h'
        · exfalso
          obtain ⟨k, hk, hak⟩ := List.any_eq_true.mp ha
          have hrk : dkeyEqv (dkey r) k = true := dkeyEqv_trans h' hak
          have : seen.any (fun k => dkeyEqv (dkey r) k) = true :=
            List.any_eq_true.mpr ⟨k, hk, hrk⟩
          rw [this] at hseen
          exact Bool.noConfusion hseen
        · exact h'
      · exact hl1 x hx
    · rw [if_neg ha] at hr
      rcases List.mem_cons.mp hr with rfl | hr
      · exact ⟨by simpa using ha, [], t, rfl, by simp⟩
      · obtain ⟨hseen, l1, l2, hdec, hl1⟩ := ih (dkey a :: seen) r hr
        simp only [List.any_cons, Bool.or_eq_false_iff] at hseen
        refine ⟨hseen.2, a :: l1, l2, by simp [hdec], ?_⟩
        intro x hx
        rcases List.mem_cons.mp hx with rfl | hx
        · exact hseen.1
        · exact hl1 x hx

theorem drop_duplicates_pairwise :
    ∀ (l : List Row) (seen : List (Cell × Cell × Cell)),
      (drop_duplicates l seen).Pairwise (fun a b => dkeyEqv (dkey a) (dkey b) = false) := by
  intro l
  induction l with
  | nil => intro seen; simp [drop_duplicates]
  | cons a t ih =>
    intro seen
    simp only [drop_duplicates]
    split
    · exact ih seen
    · refine List.Pairwise.cons ?_ (ih (dkey a :: seen))
      intro b hb
      have hseen := (mem_drop_duplicates t (dkey a :: seen) b hb).1
      simp only [List.any_cons, Bool.or_eq_false_iff] at hseen
      rw [dkeyEqv_symm]
      exact hseen.1

theorem sort_values_sorted (rs : List Row) : (sort_values rs).Pairwise rowLe :=
  List.sorted_insertionSort rowLe rs

theorem mem_sort_values {r : Row} {rs : List Row} (h : r ∈ rs) : r ∈ sort_values rs :=
  ((List.perm_insertionSort rowLe rs).mem_iff).mpr h

theorem lex_le_snd {α β : Type} [PartialOrder α] [LE β] {a b : α × β}
    (h : toLex a ≤ toLex b) (he : a.1 = b.1) : a.2 ≤ b.2 := by
  rcases (Prod.Lex.le_iff a b).mp h with h' | ⟨_, h2⟩
  · exact absurd (he ▸ h') (lt_irrefl _)
  · exact h2

theorem rowLe_popular {r p : Row} (h : rowLe r p)
    (hkey : dkeyEqv (dkey r) (dkey p) = true) :
    cellKeyDesc r.popular ≤ cellKeyDesc p.popular := by
  have hk : cellEqv r.restaurante p.restaurante = true ∧
      cellEqv r.producto p.producto = true ∧
      cellEqv r.descripcion p.descripcion = true := by
    simpa [dkeyEqv, dkey, Bool.and_eq_true, and_assoc] using hkey
  have h0 : sortKey r ≤ sortKey p := h
  have h1 := lex_le_snd h0 (cellEqv_keyAsc hk.1)
  have h2 := lex_le_snd h1 (cellEqv_keyAsc hk.2.1)
  exact lex_le_snd h2 (cellEqv_keyAsc hk.2.2)

theorem keyDesc_btrue {c : Cell} (h : cellKeyDesc c ≤ cellKeyDesc (Cell.b true)) :
    c = Cell.b true := by
  cases c with
  | b v =>
    cases v
    · exfalso
      have hfalse : cellKeyDesc (Cell.b false) =
          toLex (0, OrderDual.toDual (toLex ([], (0 : ℚ)))) := by
        norm_num [cellKeyDesc]
      have htrue : cellKeyDesc (Cell.b true) =
          toLex (0, OrderDual.toDual (toLex ([], (1 : ℚ)))) := by
        norm_num [cellKeyDesc]
      rw [hfalse, htrue] at h
      rcases (Prod.Lex.le_iff _ _).mp h with h' | ⟨-, h2⟩
      · exact absurd h' (lt_irrefl _)
      · rw [OrderDual.toDual_le_toDual] at h2
        rcases (Prod.Lex.le_iff _ _).mp h2 with h' | ⟨-, h3⟩
        · exact absurd h' (lt_irrefl _)
        · exact absurd h3 (by norm_num)
    · rfl
  | f v =>
    exfalso
    rcases (Prod.Lex.le_iff _ _).mp h with h' | ⟨h1, -⟩
    · exact absurd h' (by norm_num [cellKeyDesc])
    · exact absurd h1 (by norm_num [cellKeyDesc])
  | s t =>
    exfalso
    rcases (Prod.Lex.le_iff _ _).mp h with h' | ⟨h1, -⟩
    · exact absurd h' (by norm_num [cellKeyDesc])
    · exact absurd h1 (by norm_num [cellKeyDesc])
  | none =>
    exfalso
    rcases (Prod.Lex.le_iff _ _).mp h with h' | ⟨h1, -⟩
    · exact absurd h' (by norm_num [cellKeyDesc])
    · exact absurd h1 (by norm_num [cellKeyDesc])

/-- C1, counterexample: two records agreeing on restaurant and product, one
with an empty-string and one with a missing description, are distinct for
`drop_duplicates` (which runs before the empty-string nulling of line 512),
so both survive; the nulling then makes their descriptions equal, and the
final output contains two different rows sharing the
(Restaurante, Producto, Descripcion) triple. -/
theorem claim_C1_counterexample :
    process_data [recA, recB] = Except.ok [outA1, outA2] ∧
    dkey outA1 = dkey outA2 ∧ outA1 ≠ outA2 :=
  ⟨rfl, rfl, by decide⟩

/-- C1, amended: at the dedup stage (sort of lines 504-508, then
`drop_duplicates` of lines 509-511, before any cleaning) no two surviving rows
share the (Restaurante, Producto, Descripcion) key, and the surviving row of
each key group is popular whenever any row of the group was popular — the
descending `Popular` component of the sort key puts a popular row first and
`keep="first"` retains it.  Later cleaning steps (empty-string nulling,
suffix stripping) can merge distinct keys, so this does not extend to the
final output, see the counterexample. -/
theorem claim_C1 : ∀ (rows : List Row),
    (drop_duplicates (sort_values rows) []).Pairwise
      (fun a b => dkeyEqv (dkey a) (dkey b) = false) ∧
    ∀ r ∈ drop_duplicates (sort_values rows) [],
      (∃ p ∈ rows, dkeyEqv (dkey p) (dkey r) = true ∧ p.popular = Cell.b true) →
      r.popular = Cell.b true := by
  intro rows
  refine ⟨drop_duplicates_pairwise _ [], ?_⟩
  rintro r hr ⟨p, hp, hkey, hpop⟩
  obtain ⟨-, l1, l2, hdecomp, hl1⟩ := mem_drop_duplicates _ [] r hr
  have hsorted : (sort_values rows).Pairwise rowLe := sort_values_sorted rows
  have hpmem : p ∈ sort_values rows := mem_sort_values hp
  rw [hdecomp] at hpmem hsorted
  have hkey' : dkeyEqv (dkey r) (dkey p) = true := by
    rw [dkeyEqv_symm]
    exact hkey
  rcases List.mem_append.mp hpmem with hp1 | hp2
  · have hfalse := hl1 p hp1
    rw [hfalse] at hkey'
    exact Bool.noConfusion hkey'
  · rcases List.mem_cons.mp hp2 with rfl | hp2
    · exact hpop
    · have hle : rowLe r p := by
        have hpw := (List.pairwise_append.mp hsorted).2.1
        exact (List.pairwise_cons.mp hpw).1 p hp2
      have hdesc := rowLe_popular hle hkey'
      rw [hpop] at hdesc
      exact keyDesc_btrue hdesc

/-- C1, witness: with a non-popular and a popular row sharing the key, the
dedup-stage output has pairwise distinct keys and the surviving popular flag
is the popular one. -/
theorem claim_C1_witness :
    (drop_duplicates (sort_values [rW1, rW2]) []).Pairwise
      (fun a b => dkeyEqv (dkey a) (dkey b) = false) ∧
    rW2.popular = Cell.b true :=
  ⟨(claim_C1 [rW1, rW2]).1,
   (claim_C1 [rW1, rW2]).2 rW2 (by decide) ⟨rW2, by decide, by decide, rfl⟩⟩
